import Mathlib

/-!
Shallow embedding of the hybrid retrieval core of the repository:
`src/rag/VectorDB/BM25Index.py`, `src/rag/VectorDB/VectorIndex.py` and
`src/rag/retriver/MultipleIndex.py`, together with proofs about it.

Modelling conventions:
* Python dynamic values that reach a validation site are modelled by the
  inductive `PyVal` (strings, numbers, lists, dicts, and an opaque
  non-conforming value `other`).  Python numbers (`int`/`float`) are
  modelled by `ℚ`; scores and distances computed from them live in `ℝ`.
* A Python object reference to a document is modelled by `Obj`: the
  payload dict plus an `oid : ℕ` field standing for the CPython object
  identity `id(doc)`.  Distinct live objects have distinct `oid`s, so
  equality of `Obj` values models identity of the underlying objects.
* `raise` is modelled by `Except PyErr` for non-mutating methods, and by
  a `State × Option PyErr` result for mutating methods, so that the state
  at the moment of the raise is observable (this is what makes the
  atomicity claims non-trivial).
* Python's stable `list.sort` is modelled by a stable insertion sort with
  a non-strict boolean comparator (`sort(reverse=True)` keeps the
  original order of ties, matched by comparator `b ≤ a`).
* Python `dict` iteration order is insertion order: a dict built by
  repeated keyed writes is modelled by first-seen key order with
  last-write-wins values.
-/

/-- Python error values: `TypeError`/`ValueError` with their message. -/
inductive PyErr where
  | typeError (msg : String)
  | valueError (msg : String)
  deriving DecidableEq

/-- Dynamic Python values as far as the indexing code inspects them. -/
inductive PyVal where
  | str (s : String)
  | num (q : ℚ)
  | list (xs : List PyVal)
  | dict (fields : List (String × PyVal))
  | other

namespace PyVal

mutual

/-- Structural equality test (deriving is unavailable for this nested
inductive on this toolchain, so it is written out). -/
def beq : PyVal → PyVal → Bool
  | .str a, .str b => a == b
  | .num a, .num b => a == b
  | .list xs, .list ys => beqList xs ys
  | .dict xs, .dict ys => beqFields xs ys
  | .other, .other => true
  | _, _ => false

def beqList : List PyVal → List PyVal → Bool
  | [], [] => true
  | a :: as, b :: bs => beq a b && beqList as bs
  | _, _ => false

def beqFields : List (String × PyVal) → List (String × PyVal) → Bool
  | [], [] => true
  | (k, a) :: as, (k', b) :: bs => k == k' && beq a b && beqFields as bs
  | _, _ => false

end

mutual

def eq_of_beq : ∀ a b : PyVal, beq a b = true → a = b
  | .str _, .str _, h => by
      simpa [beq] using congrArg PyVal.str (by simpa [beq] using h : _)
  | .num _, .num _, h => by
      simpa [beq] using congrArg PyVal.num (by simpa [beq] using h : _)
  | .list xs, .list ys, h => by
      have := eqList_of_beqList xs ys (by simpa [beq] using h)
      simp [this]
  | .dict xs, .dict ys, h => by
      have := eqFields_of_beqFields xs ys (by simpa [beq] using h)
      simp [this]
  | .other, .other, _ => rfl

def eqList_of_beqList : ∀ xs ys : List PyVal, beqList xs ys = true → xs = ys
  | [], [], _ => rfl
  | a :: as, b :: bs, h => by
      have h1 : beq a b = true := by
        have := h; simp [beqList, Bool.and_eq_true] at this; exact this.1
      have h2 : beqList as bs = true := by
        have := h; simp [beqList, Bool.and_eq_true] at this; exact this.2
      rw [eq_of_beq a b h1, eqList_of_beqList as bs h2]

def eqFields_of_beqFields :
    ∀ xs ys : List (String × PyVal), beqFields xs ys = true → xs = ys
  | [], [], _ => rfl
  | (k, a) :: as, (k', b) :: bs, h => by
      have h0 : k = k' := by
        have := h; simp [beqFields, Bool.and_eq_true] at this
        exact this.1.1
      have h1 : beq a b = true := by
        have := h; simp [beqFields, Bool.and_eq_true] at this; exact this.1.2
      have h2 : beqFields as bs = true := by
        have := h; simp [beqFields, Bool.and_eq_true] at this; exact this.2
      rw [h0, eq_of_beq a b h1, eqFields_of_beqFields as bs h2]

end

mutual

def beq_refl : ∀ a : PyVal, beq a a = true
  | .str _ => by simp [beq]
  | .num _ => by simp [beq]
  | .list xs => by simp [beq, beqList_refl xs]
  | .dict xs => by simp [beq, beqFields_refl xs]
  | .other => rfl

def beqList_refl : ∀ xs : List PyVal, beqList xs xs = true
  | [] => rfl
  | a :: as => by simp [beqList, beq_refl a, beqList_refl as]

def beqFields_refl : ∀ xs : List (String × PyVal), beqFields xs xs = true
  | [] => rfl
  | (k, a) :: as => by simp [beqFields, beq_refl a, beqFields_refl as]

end

instance : DecidableEq PyVal := fun a b =>
  if h : beq a b = true then .isTrue (eq_of_beq a b h)
  else .isFalse (fun he => h (he ▸ beq_refl a))

/-- `isinstance(v, str)`. -/
def isStr : PyVal → Bool
  | .str _ => true
  | _ => false

/-- `isinstance(v, dict)`. -/
def isDict : PyVal → Bool
  | .dict _ => true
  | _ => false

/-- Python `d[key]` / `d.get(key)` on a dict literal: last write wins. -/
def dictGet (key : String) : PyVal → Option PyVal
  | .dict fields => (fields.filter (fun p => p.1 = key)).getLast?.map Prod.snd
  | _ => none

/-- `isinstance(v, list) and all(isinstance(x, (int, float)) for x in v)`,
returning the numeric payload when it holds. -/
def asNumList : PyVal → Option (List ℚ)
  | .list xs => xs.mapM (fun x => match x with | .num q => some q | _ => none)
  | _ => none

end PyVal

/-- A Python object reference: payload value plus object identity
(`oid` models CPython `id(obj)`). -/
structure Obj where
  oid : ℕ
  val : PyVal
  deriving DecidableEq

/-- The `"id"` field of a document object, when present and a string. -/
def idOf (d : Obj) : Option String :=
  match d.val.dictGet "id" with
  | some (.str s) => some s
  | _ => none

section ListHelpers

variable {α : Type*}

/-- One insertion step of a stable insertion sort with a boolean
comparator (used to model Python's stable `list.sort`). -/
def orderedInsertB (le : α → α → Bool) (a : α) : List α → List α
  | [] => [a]
  | b :: l => if le a b then a :: b :: l else b :: orderedInsertB le a l

/-- Stable insertion sort with a boolean comparator.  With a total
non-strict comparator this computes exactly Python's stable sort. -/
def insertionSortB (le : α → α → Bool) : List α → List α
  | [] => []
  | a :: l => orderedInsertB le a (insertionSortB le l)

/-- Walk a list keeping the elements not in `seen`, threading the set
of already-seen elements (the `seen_in_doc` / dict-key pattern of the
source). -/
def firstSeenDedupAux [DecidableEq α] (seen : List α) : List α → List α
  | [] => []
  | a :: l =>
      if a ∈ seen then firstSeenDedupAux seen l
      else a :: firstSeenDedupAux (a :: seen) l

/-- Deduplication keeping the FIRST occurrence of each element, in order:
this is Python dict key insertion order for repeatedly written keys. -/
def firstSeenDedup [DecidableEq α] (l : List α) : List α :=
  firstSeenDedupAux [] l

/-- Index of the first occurrence of `d`, if any. -/
def firstIdxRec [DecidableEq α] (d : α) : List α → Option ℕ
  | [] => none
  | a :: l => if a = d then some 0 else (firstIdxRec d l).map (· + 1)

/-- Index of the last occurrence of `d`, if any (a sequence of keyed
dict writes leaves the LAST written value). -/
def lastIdxRec [DecidableEq α] (d : α) : List α → Option ℕ
  | [] => none
  | a :: l =>
      match lastIdxRec d l with
      | some j => some (j + 1)
      | none => if a = d then some 0 else none

/-- `(l.filter p).getLast?`: the last element satisfying `p`, mirroring
the last-write-wins semantics of a Python dict comprehension. -/
def lastFind (p : α → Bool) (l : List α) : Option α :=
  (l.filter p).getLast?

end ListHelpers

/-! ## BM25Index (`src/rag/VectorDB/BM25Index.py`) -/

/-- The fields of `BM25Index.__init__`.  `_doc_freqs` and `_idf` are
Python dicts with unique keys in insertion order, modelled as
association lists. -/
structure BM25State where
  documents : List Obj
  corpusTokens : List (List String)
  docLen : List ℕ
  docFreqs : List (String × ℕ)
  avgDocLen : ℝ
  idf : List (String × ℝ)
  indexBuilt : Bool
  k1 : ℝ
  b : ℝ

/-- `BM25Index(k1=1.5, b=0.75)` with the default tokenizer. -/
def bm25Init : BM25State :=
  { documents := [], corpusTokens := [], docLen := [], docFreqs := [],
    avgDocLen := 0.0, idf := [], indexBuilt := false, k1 := 1.5, b := 0.75 }

/-- A word character for `re.split(r"\W+", text)` (ASCII fragment of
Python's `\w`; all text in the claims is ASCII). -/
def isWordChar (c : Char) : Bool :=
  c.isAlphanum || c == '_'

/-- Splitting a character list at every separator character, keeping
empty pieces (as `re.split` does between consecutive separators and at
the ends). -/
def splitCharsAux (p : Char → Bool) : List Char → List Char → List (List Char)
  | [], acc => [acc.reverse]
  | c :: cs, acc =>
      if p c then acc.reverse :: splitCharsAux p cs []
      else splitCharsAux p cs (c :: acc)

/-- `BM25Index._default_tokenizer`: lowercase the text, split on runs
of non-word characters (`re.split` emits empty strings between
consecutive separators and at the boundaries), drop empty tokens. -/
def defaultTokenizer (text : String) : List String :=
  ((splitCharsAux (fun c => !isWordChar c) (text.data.map Char.toLower) []).map
    (fun cs => String.mk cs)).filter (fun t => t ≠ "")

/-- `self._doc_freqs[token] = self._doc_freqs.get(token, 0) + 1`:
increment in place, or append the key with count 1. -/
def dfIncr (m : List (String × ℕ)) (key : String) : List (String × ℕ) :=
  match m.lookup key with
  | some _ => m.map (fun p => if p.1 = key then (p.1, p.2 + 1) else p)
  | none => m ++ [(key, 1)]

/-- `BM25Index._update_stats_add`: record the document length, count
each token once per document (the `seen_in_doc` set makes the loop hit
each distinct token once, in first-occurrence order), mark stale. -/
def updateStatsAdd (st : BM25State) (docTokens : List String) : BM25State :=
  { st with
    docLen := st.docLen ++ [docTokens.length],
    docFreqs := (firstSeenDedup docTokens).foldl dfIncr st.docFreqs,
    indexBuilt := false }

/-- `BM25Index._calculate_idf`:
`idf(t) = log(((N - df + 0.5) / (df + 0.5)) + 1)` over all stored terms. -/
noncomputable def calculateIdf (st : BM25State) : List (String × ℝ) :=
  st.docFreqs.map (fun p =>
    (p.1, Real.log ((((st.documents.length : ℝ) - (p.2 : ℝ) + 0.5) / ((p.2 : ℝ) + 0.5)) + 1)))

/-- `BM25Index._build_index`. -/
noncomputable def buildIndex (st : BM25State) : BM25State :=
  if st.documents.isEmpty then
    { st with avgDocLen := 0.0, idf := [], indexBuilt := true }
  else
    { st with
      avgDocLen := (st.docLen.sum : ℝ) / (st.documents.length : ℝ),
      idf := calculateIdf st,
      indexBuilt := true }

/-- `BM25Index.add_document`: validations (non-dict, missing
`'content'`, non-string content) happen before any mutation; then the
document and its tokens are appended and the statistics updated. -/
def bm25AddDocument (st : BM25State) (document : Obj) : BM25State × Option PyErr :=
  if !document.val.isDict then
    (st, some (.typeError "Document must be a dictionary."))
  else
    match document.val.dictGet "content" with
    | none =>
        (st, some (.valueError "Document dictionary must contain a 'content' key."))
    | some (.str content) =>
        let docTokens := defaultTokenizer content
        (updateStatsAdd
          { st with
            documents := st.documents ++ [document],
            corpusTokens := st.corpusTokens ++ [docTokens] } docTokens, none)
    | some _ => (st, some (.typeError "Document 'content' must be a string."))

/-- The summand of `BM25Index._compute_bm25_score` for one query token
found in the idf table:
`idf * tf * (k1 + 1) / (tf + k1 * (1 - b + b * (dl / avgdl)) + 1e-9)`. -/
noncomputable def bm25TermScore (k1 b idf : ℝ) (termFreq : ℕ) (docLength : ℕ)
    (avgDocLen : ℝ) : ℝ :=
  let numerator := idf * (termFreq : ℝ) * (k1 + 1)
  let denominator := (termFreq : ℝ) + k1 * (1 - b + b * ((docLength : ℝ) / avgDocLen))
  numerator / (denominator + 1e-9)

/-- `BM25Index._compute_bm25_score`: sum the term scores of the query
tokens that occur in the idf table (`continue` otherwise); the term
frequency is the token's count in the document's token list. -/
noncomputable def computeBm25Score (st : BM25State) (queryTokens : List String)
    (docIndex : ℕ) : ℝ :=
  let docTokens := st.corpusTokens.getD docIndex []
  let docLength := st.docLen.getD docIndex 0
  queryTokens.foldl (fun score token =>
    match st.idf.lookup token with
    | none => score
    | some idf =>
        score + bm25TermScore st.k1 st.b idf (docTokens.count token) docLength st.avgDocLen) 0

/-- `BM25Index.search(query_text, k, score_normalization_factor=0.1)`.
Returns the (possibly lazily rebuilt) state together with the result or
the raised error.  The result keeps only documents with raw score
`> 1e-9`, sorts them descending by raw score, takes `k`, maps each raw
score to `exp(-factor * raw)`, and re-sorts ascending by that value. -/
noncomputable def bm25Search (st : BM25State) (queryText : PyVal) (k : ℤ)
    (scoreNormalizationFactor : ℝ) : BM25State × Except PyErr (List (Obj × ℝ)) :=
  if st.documents.isEmpty then (st, .ok [])
  else if !queryText.isStr then
    (st, .error (.typeError "Query text must be a string."))
  else if k ≤ 0 then
    (st, .error (.valueError "k must be a positive integer."))
  else
    let st := if !st.indexBuilt then buildIndex st else st
    if st.avgDocLen = 0 then (st, .ok [])
    else
      let queryTokens := defaultTokenizer (match queryText with | .str s => s | _ => "")
      if queryTokens.isEmpty then (st, .ok [])
      else
        let rawScores :=
          ((List.range st.documents.length).map
            (fun i => (computeBm25Score st queryTokens i, st.documents.getD i ⟨0, .other⟩))).filter
            (fun p => decide ((1e-9 : ℝ) < p.1))
        let rawSorted := insertionSortB (fun a b => decide (b.1 ≤ a.1)) rawScores
        let normalized := (rawSorted.take k.toNat).map
          (fun p => (p.2, Real.exp (-scoreNormalizationFactor * p.1)))
        (st, .ok (insertionSortB (fun a b => decide (a.2 ≤ b.2)) normalized))

/-! ## VectorIndex (`src/rag/VectorDB/VectorIndex.py`) -/

/-- The data fields of `VectorIndex.__init__` (the embedding function is
an immutable constructor argument and is passed as an explicit
parameter to the operations that read it). -/
structure VState where
  vectors : List (List ℚ)
  documents : List Obj
  vectorDim : Option ℕ
  distanceMetric : String
  deriving DecidableEq

/-- `VectorIndex.__init__(distance_metric)`: rejects any metric other
than `"cosine"` or `"euclidean"`. -/
def vectorIndexInit (distanceMetric : String) : Except PyErr VState :=
  if distanceMetric ≠ "cosine" ∧ distanceMetric ≠ "euclidean" then
    .error (.valueError "distance_metric must be 'cosine' or 'euclidean'")
  else
    .ok { vectors := [], documents := [], vectorDim := none,
          distanceMetric := distanceMetric }

/-- `VectorIndex._magnitude`: `sqrt(sum(x * x for x in vec))`. -/
noncomputable def magnitude (vec : List ℝ) : ℝ :=
  Real.sqrt ((vec.map (fun x => x * x)).sum)

/-- `VectorIndex._dot_product`, including its dimension check. -/
noncomputable def dotProduct (vec1 vec2 : List ℝ) : Except PyErr ℝ :=
  if vec1.length ≠ vec2.length then
    .error (.valueError "Vectors must have the same dimension")
  else
    .ok (((vec1.zip vec2).map (fun p => p.1 * p.2)).sum)

/-- `VectorIndex._cosine_distance`: dimension check; both magnitudes
zero gives `0.0`; exactly one zero gives `1.0`; otherwise
`1 - clamp(dot / (mag1 * mag2), -1, 1)`. -/
noncomputable def cosineDistance (vec1 vec2 : List ℝ) : Except PyErr ℝ :=
  if vec1.length ≠ vec2.length then
    .error (.valueError "Vectors must have the same dimension")
  else
    let mag1 := magnitude vec1
    let mag2 := magnitude vec2
    if mag1 = 0 ∧ mag2 = 0 then .ok 0.0
    else if mag1 = 0 ∨ mag2 = 0 then .ok 1.0
    else
      match dotProduct vec1 vec2 with
      | .error e => .error e
      | .ok dotProd =>
          let cosineSimilarity := dotProd / (mag1 * mag2)
          .ok (1.0 - max (-1.0) (min 1.0 cosineSimilarity))

/-- `VectorIndex._euclidean_distance`. -/
noncomputable def euclideanDistance (vec1 vec2 : List ℝ) : Except PyErr ℝ :=
  if vec1.length ≠ vec2.length then
    .error (.valueError "Vectors must have the same dimension")
  else
    .ok (Real.sqrt (((vec1.zip vec2).map (fun p => (p.1 - p.2) ^ 2)).sum))

/-- `VectorIndex.add_vector`: vector validation, document validation,
dimensionality establishment/check — all before the two appends. -/
def vectorAddVector (st : VState) (vector : PyVal) (document : Obj) :
    VState × Option PyErr :=
  match vector.asNumList with
  | none => (st, some (.typeError "Vector must be a list of numbers."))
  | some v =>
      if !document.val.isDict then
        (st, some (.typeError "Document must be a dictionary."))
      else if (document.val.dictGet "content").isNone then
        (st, some (.valueError "Document dictionary must contain a 'content' key."))
      else if st.vectors.isEmpty then
        ({ st with vectors := st.vectors ++ [v],
                   documents := st.documents ++ [document],
                   vectorDim := some v.length }, none)
      else if st.vectorDim ≠ some v.length then
        (st, some (.valueError "Inconsistent vector dimension."))
      else
        ({ st with vectors := st.vectors ++ [v],
                   documents := st.documents ++ [document] }, none)

/-- `VectorIndex.add_document`: requires the embedding function, checks
the document shape, embeds the content and delegates to `add_vector`. -/
def vectorAddDocument (embedFn : Option (String → List ℚ)) (st : VState)
    (document : Obj) : VState × Option PyErr :=
  match embedFn with
  | none => (st, some (.valueError "Embedding function not provided during initialization."))
  | some f =>
      if !document.val.isDict then
        (st, some (.typeError "Document must be a dictionary."))
      else
        match document.val.dictGet "content" with
        | none =>
            (st, some (.valueError "Document dictionary must contain a 'content' key."))
        | some (.str content) =>
            vectorAddVector st (.list ((f content).map .num)) document
        | some _ => (st, some (.typeError "Document 'content' must be a string."))

/-- `VectorIndex.search(query, k)`: empty index short-circuits to `[]`
before any validation; then query resolution (string needs the
embedding function, otherwise a numeric list), the
`_vector_dim is None` short-circuit, the dimension check, the `k`
check, the brute-force distance scan and the ascending stable sort.
The method performs no assignment to `self`, so it returns no state. -/
noncomputable def vectorSearch (embedFn : Option (String → List ℚ)) (st : VState)
    (query : PyVal) (k : ℤ) : Except PyErr (List (Obj × ℝ)) :=
  if st.vectors.isEmpty then .ok []
  else
    let queryVectorE : Except PyErr (List ℚ) :=
      match query with
      | .str s =>
          match embedFn with
          | none => .error (.valueError "Embedding function not provided for string query.")
          | some f => .ok (f s)
      | q =>
          match q.asNumList with
          | some v => .ok v
          | none => .error (.typeError "Query must be either a string or a list of numbers.")
    match queryVectorE with
    | .error e => .error e
    | .ok queryVector =>
        match st.vectorDim with
        | none => .ok []
        | some dim =>
            if queryVector.length ≠ dim then
              .error (.valueError "Query vector dimension mismatch.")
            else if k ≤ 0 then
              .error (.valueError "k must be a positive integer.")
            else
              let distFunc :=
                if st.distanceMetric = "cosine" then cosineDistance else euclideanDistance
              match (st.vectors.zip st.documents).mapM (fun p =>
                  (distFunc (queryVector.map (fun x => (x : ℝ)))
                    (p.1.map (fun x => (x : ℝ)))).map (fun d => (d, p.2))) with
              | .error e => .error e
              | .ok distances =>
                  let sorted := insertionSortB (fun a b => decide (a.1 ≤ b.1)) distances
                  .ok ((sorted.take k.toNat).map (fun p => (p.2, p.1)))

/-- One client-visible operation on a `VectorIndex`. -/
inductive VOp where
  | addDoc (document : Obj)
  | addVec (vector : PyVal) (document : Obj)
  | search (query : PyVal) (k : ℤ)

/-- State transition of one operation: the adders return their
post-state (identical to the pre-state when they raise), and `search`
contains no assignment to `self`, so it leaves the state unchanged. -/
def vStep (embedFn : Option (String → List ℚ)) (st : VState) : VOp → VState
  | .addDoc d => (vectorAddDocument embedFn st d).1
  | .addVec v d => (vectorAddVector st v d).1
  | .search _ _ => st

/-- The state `VectorIndex(distance_metric="cosine")` starts in. -/
def vCosineEmpty : VState :=
  { vectors := [], documents := [], vectorDim := none, distanceMetric := "cosine" }

/-! ## Retriever (`src/rag/retriver/MultipleIndex.py`)

An index is abstracted, as in the `SearchIndex` protocol, by its
`search` capability: a function from the query string and `k` to a
ranked result list (or a raised error, which `Retriever.search`
propagates). -/

/-- `calc_rrf_score(ranks)`: `sum(1.0 / (k_rrf + r) for r in ranks if
r != inf)`; the absent-from-this-index sentinel `inf` is `none`. -/
noncomputable def calcRrfScore (kRrf : ℤ) (ranks : List (Option ℕ)) : ℝ :=
  ((ranks.filterMap id).map (fun r => 1.0 / ((kRrf : ℝ) + (r : ℝ)))).sum

/-- The 1-based rank the `doc_ranks` loop leaves for `d` in one result
list: the loop writes `rank + 1` at every occurrence, so the last
occurrence wins; `none` when `d` never occurs. -/
def lastRank1 (results : List (Obj × ℝ)) (d : Obj) : Option ℕ :=
  (lastIdxRec d (results.map Prod.fst)).map (· + 1)

/-- The per-index rank vector `doc_ranks[id(d)]["ranks"]` after the
whole loop. -/
def ranksOf (allResults : List (List (Obj × ℝ))) (d : Obj) : List (Option ℕ) :=
  allResults.map (fun res => lastRank1 res d)

/-- `scored_docs`: one entry per distinct document identity, in
first-seen order across the per-index result lists (Python dict key
insertion order), paired with its fused RRF score. -/
noncomputable def scoredDocs (allResults : List (List (Obj × ℝ))) (kRrf : ℤ) :
    List (Obj × ℝ) :=
  (firstSeenDedup ((allResults.map (fun res => res.map Prod.fst)).flatten)).map
    (fun d => (d, calcRrfScore kRrf (ranksOf allResults d)))

/-- `Retriever.search` up to (and including) `result = filtered_docs[:k]`:
argument validation, the `k * 5` over-fetch from every index (an index
raising propagates), fusion, the `score > 0` filter, the stable
descending sort, and the top-`k` cut. -/
noncomputable def retrieverPrerank
    (indexes : List (String → ℤ → Except PyErr (List (Obj × ℝ))))
    (queryText : PyVal) (k kRrf : ℤ) : Except PyErr (List (Obj × ℝ)) :=
  if !queryText.isStr then .error (.typeError "Query text must be a string.")
  else if k ≤ 0 then .error (.valueError "k must be a positive integer.")
  else if kRrf < 0 then .error (.valueError "k_rrf must be non-negative.")
  else
    match indexes.mapM
        (fun ix => ix (match queryText with | .str s => s | _ => "") (k * 5)) with
    | .error e => .error e
    | .ok allResults =>
        let filteredDocs :=
          (scoredDocs allResults kRrf).filter (fun p => decide ((0 : ℝ) < p.2))
        let sorted := insertionSortB (fun a b => decide (b.2 ≤ a.2)) filteredDocs
        .ok (sorted.take k.toNat)

/-- `doc["id"] = <fresh identifier>`: append the key to the document
dict, in place — the object identity (`oid`) is unchanged, only the
payload grows.  (Only ever reached for dict payloads: the id-assignment
loop runs over fused candidates, which are stored documents; on a
non-dict payload the Python membership test itself would raise, and we
leave the value unchanged.) -/
def setId (d : Obj) (s : String) : Obj :=
  ⟨d.oid, match d.val with
          | .dict fields => .dict (fields ++ [("id", .str s)])
          | v => v⟩

/-- The id-assignment loop of `Retriever.search` (lines 134–140): every
candidate whose dict lacks an `"id"` key receives a fresh generated
identifier.  The source draws 4 random alphanumeric characters per
assignment; the successive draws are modelled by the explicit supply
`genId`, indexed by how many identifiers this loop has assigned so
far.  Candidates already carrying an `"id"` key (of any type) are
untouched, exactly as `"id" not in doc` dictates. -/
def assignIds (genId : ℕ → String) : ℕ → List Obj → List Obj
  | _, [] => []
  | n, d :: ds =>
      if (d.val.dictGet "id").isSome then d :: assignIds genId n ds
      else setId d (genId n) :: assignIds genId (n + 1) ds

/-- `original_scores.get(id(doc), 0.0)`: `original_scores` is keyed by
object identity `id(doc)` — which survives the in-place id assignment —
so the lookup is by `oid`; a repeated write (impossible for the
duplicate-identity-free `result`) would keep the last one. -/
def origScoreById (result : List (Obj × ℝ)) (oid : ℕ) : ℝ :=
  match lastFind (fun p => decide (p.1.oid = oid)) result with
  | some p => p.2
  | none => 0.0

/-- Lines 142–154 of `Retriever.search`: build `doc_lookup` over
`docs_only` (keyed by the documents' `"id"` value, last write wins;
a string identifier only ever matches a string-valued `"id"` field),
then walk `reranked_ids` keeping only identifiers that name a
candidate, each paired with the candidate's original fused score looked
up by object identity. -/
def rerankStep (result : List (Obj × ℝ)) (docsOnly : List Obj)
    (rerankedIds : List String) : List (Obj × ℝ) :=
  rerankedIds.filterMap (fun docId =>
    match lastFind (fun d => decide (idOf d = some docId)) docsOnly with
    | some doc => some (doc, origScoreById result doc.oid)
    | none => none)

/-- `Retriever.search(query_text, k, k_rrf)`: the fused pre-rank stage
followed, when a reranker is configured, by the id-assignment loop over
the top-`k` candidates (lines 134–140, random draws supplied by
`genId`) and the rerank step.  The assignment mutates the shared
document objects, so both `docs_only` and the documents handed to the
reranker and returned to the caller are the updated ones, while
`original_scores` keys by the unchanged object identity. -/
noncomputable def retrieverSearch
    (indexes : List (String → ℤ → Except PyErr (List (Obj × ℝ))))
    (rerankerFn : Option (List Obj → String → ℤ → List String))
    (genId : ℕ → String)
    (queryText : PyVal) (k kRrf : ℤ) : Except PyErr (List (Obj × ℝ)) :=
  match retrieverPrerank indexes queryText k kRrf with
  | .error e => .error e
  | .ok result =>
      match rerankerFn with
      | none => .ok result
      | some f =>
          let docsOnly := assignIds genId 0 (result.map Prod.fst)
          .ok (rerankStep result docsOnly
            (f docsOnly (match queryText with | .str s => s | _ => "") k))

/-! ## Specification-side definitions and concrete fixtures -/

/-- Specification-side Reciprocal Rank Fusion score: the sum, over
exactly the per-index result lists in which the document appears, of
`1 / (k_rrf + rank)` with `rank` the 1-based position of the document
in that list (lists not containing it contribute nothing). -/
noncomputable def rrfSpecScore (allResults : List (List (Obj × ℝ))) (kRrf : ℤ)
    (d : Obj) : ℝ :=
  (allResults.map (fun res =>
    match firstIdxRec d (res.map Prod.fst) with
    | some i => 1.0 / ((kRrf : ℝ) + ((i + 1 : ℕ) : ℝ))
    | none => 0)).sum

/-- The structural invariant of `VectorIndex` (claim C10): parallel
lists of equal length, and every stored vector has the established
dimensionality. -/
def vInvariant (st : VState) : Prop :=
  st.vectors.length = st.documents.length ∧
  ∀ v ∈ st.vectors, ∀ n, st.vectorDim = some n → v.length = n

/-- A document rejected by `BM25Index.add_document`: not a dict, no
`'content'` key, or non-string content. -/
def badDoc (d : Obj) : Prop :=
  d.val.isDict = false ∨ d.val.dictGet "content" = none ∨
  ∃ w, d.val.dictGet "content" = some w ∧ w.isStr = false

/-- A document rejected by `VectorIndex.add_vector`, which checks only
that it is a dict with a `'content'` key. -/
def badShapeDoc (d : Obj) : Prop :=
  d.val.isDict = false ∨ d.val.dictGet "content" = none

/-- Fixture: the document `{id: "d1", content: "cats are mammals"}`. -/
def d1 : Obj :=
  ⟨1, .dict [("id", .str "d1"), ("content", .str "cats are mammals")]⟩

/-- Fixture: the document `{id: "d2", content: "dogs are mammals"}`. -/
def d2 : Obj :=
  ⟨2, .dict [("id", .str "d2"), ("content", .str "dogs are mammals")]⟩

/-- Fixture: the BM25 index after adding exactly `d1` then `d2`
(`Retriever.add_document` forwards each document unchanged to the
index, since both already carry an `"id"`). -/
def bm25TwoDocs : BM25State :=
  (bm25AddDocument (bm25AddDocument bm25Init d1).1 d2).1

/-- The raw BM25 score of `d1` for the query `"cats"` on the built
two-document fixture index. -/
noncomputable def rawCats : ℝ :=
  computeBm25Score (buildIndex bm25TwoDocs) ["cats"] 0

/-- The two-document lexical index as a `SearchIndex` collaborator of
the Retriever (the Retriever hands it the query string and `k`). -/
noncomputable def lexIndexFn (q : String) (k : ℤ) : Except PyErr (List (Obj × ℝ)) :=
  (bm25Search bm25TwoDocs (.str q) k 0.1).2

/-- Fixture documents for the RRF scenarios. -/
def docX : Obj := ⟨10, .dict [("id", .str "x"), ("content", .str "xx")]⟩

def docY : Obj := ⟨11, .dict [("id", .str "y"), ("content", .str "yy")]⟩

def docW : Obj := ⟨12, .dict [("id", .str "w"), ("content", .str "ww")]⟩

/-- Fixture index ranking `[X, Y]`. -/
def ixXY : String → ℤ → Except PyErr (List (Obj × ℝ)) :=
  fun _ _ => .ok [(docX, 0), (docY, 0)]

/-- Fixture index ranking `[Y, X]`. -/
def ixYX : String → ℤ → Except PyErr (List (Obj × ℝ)) :=
  fun _ _ => .ok [(docY, 0), (docX, 0)]

/-- Fixture index ranking `[X]` alone. -/
def ixX : String → ℤ → Except PyErr (List (Obj × ℝ)) :=
  fun _ _ => .ok [(docX, 0)]

/-- Fixture index ranking `[W]` alone. -/
def ixW : String → ℤ → Except PyErr (List (Obj × ℝ)) :=
  fun _ _ => .ok [(docW, 0)]

/-- Fixture: an id-less document as produced by
`Retriever.add_documents` in `rag_context.py` / `rag_usage.py`. -/
def dN : Obj := ⟨20, .dict [("content", .str "nn")]⟩

/-- Fixture index ranking the id-less document `[N]` alone. -/
def ixN : String → ℤ → Except PyErr (List (Obj × ℝ)) :=
  fun _ _ => .ok [(dN, 0)]

/-- Fixture: a well-formed contentful document without an `"id"`. -/
def dC : Obj := ⟨3, .dict [("content", .str "a")]⟩

/-- Fixture: the BM25 index holding just `dC`. -/
def bm25OneDoc : BM25State := (bm25AddDocument bm25Init dC).1

/-- Fixture: a one-vector cosine `VectorIndex` state of dimension 1. -/
def vOneDim : VState :=
  { vectors := [[1]], documents := [dC], vectorDim := some 1,
    distanceMetric := "cosine" }

/-! ## General lemmas about the list helpers -/

section ListHelperLemmas

variable {α : Type*}

theorem orderedInsertB_perm (le : α → α → Bool) (a : α) (l : List α) :
    (orderedInsertB le a l).Perm (a :: l) := by
  induction l with
  | nil => simp [orderedInsertB]
  | cons b t ih =>
      by_cases h : le a b = true
      · simp [orderedInsertB, h]
      · simp only [orderedInsertB, h, if_false]
        exact ((ih.cons b).trans (List.Perm.swap a b t))

theorem insertionSortB_perm (le : α → α → Bool) (l : List α) :
    (insertionSortB le l).Perm l := by
  induction l with
  | nil => simp [insertionSortB]
  | cons a t ih =>
      exact (orderedInsertB_perm le a (insertionSortB le t)).trans (ih.cons a)

theorem mem_insertionSortB (le : α → α → Bool) (l : List α) (a : α) :
    a ∈ insertionSortB le l ↔ a ∈ l :=
  (insertionSortB_perm le l).mem_iff


theorem mem_firstSeenDedupAux [DecidableEq α] (l : List α) :
    ∀ (seen : List α) (a : α),
      a ∈ firstSeenDedupAux seen l ↔ a ∈ l ∧ a ∉ seen := by
  induction l with
  | nil => intro seen a; simp [firstSeenDedupAux]
  | cons b t ih =>
      intro seen a
      by_cases hb : b ∈ seen
      · rw [firstSeenDedupAux, if_pos hb, ih]
        simp only [List.mem_cons]
        constructor
        · rintro ⟨h1, h2⟩; exact ⟨Or.inr h1, h2⟩
        · rintro ⟨h1 | h1, h2⟩
          · exact absurd (h1 ▸ hb) h2
          · exact ⟨h1, h2⟩
      · rw [firstSeenDedupAux, if_neg hb]
        simp only [List.mem_cons, ih, not_or]
        constructor
        · rintro (rfl | ⟨h1, h2, h3⟩)
          · exact ⟨Or.inl rfl, hb⟩
          · exact ⟨Or.inr h1, h3⟩
        · rintro ⟨rfl | h1, h2⟩
          · exact Or.inl rfl
          · by_cases hab : a = b
            · exact Or.inl hab
            · exact Or.inr ⟨h1, hab, h2⟩

theorem mem_firstSeenDedup [DecidableEq α] (l : List α) (a : α) :
    a ∈ firstSeenDedup l ↔ a ∈ l := by
  simp [firstSeenDedup, mem_firstSeenDedupAux]


theorem firstIdxRec_eq_none [DecidableEq α] (d : α) (l : List α) :
    firstIdxRec d l = none ↔ d ∉ l := by
  induction l with
  | nil => simp [firstIdxRec]
  | cons a t ih =>
      by_cases h : a = d
      · simp [firstIdxRec, h]
      · simp [firstIdxRec, h, ih, Ne.symm h]

theorem lastIdxRec_eq_none [DecidableEq α] (d : α) (l : List α) :
    lastIdxRec d l = none ↔ d ∉ l := by
  induction l with
  | nil => simp [lastIdxRec]
  | cons a t ih =>
      by_cases h : a = d
      · subst h
        cases htl : lastIdxRec a t with
        | none => simp [lastIdxRec, htl]
        | some j => simp [lastIdxRec, htl]
      · cases htl : lastIdxRec d t with
        | none =>
            simp only [htl, lastIdxRec]
            simp [h, Ne.symm h, ih.mp htl]
        | some j =>
            have : d ∈ t := by
              by_contra hmem
              rw [ih.mpr hmem] at htl; cases htl
            simp [lastIdxRec, htl, this]

/-- On duplicate-free lists the last occurrence is the first one. -/
theorem lastIdxRec_eq_firstIdxRec [DecidableEq α] (d : α) (l : List α)
    (hnd : l.Nodup) : lastIdxRec d l = firstIdxRec d l := by
  induction l with
  | nil => rfl
  | cons a t ih =>
      rcases List.nodup_cons.mp hnd with ⟨ha, hnt⟩
      by_cases h : a = d
      · subst h
        have : lastIdxRec a t = none := (lastIdxRec_eq_none a t).mpr ha
        simp [lastIdxRec, firstIdxRec, this]
      · cases htl : lastIdxRec d t with
        | none => simp [lastIdxRec, firstIdxRec, htl, h, (ih hnt).symm.trans htl]
        | some j => simp [lastIdxRec, firstIdxRec, htl, h, ← ih hnt, htl]

end ListHelperLemmas

/-! ## Claim C1: BM25 term-score monotonicity in term frequency -/

/-- Monotonicity core: `idf * t * K / (t + a)` is monotone in `t ≥ 0`
for `a > 0`, `K ≥ 0`, `idf ≥ 0`. -/
theorem rrf_div_term_mono (K a idf t1 t2 : ℝ) (hK : 0 ≤ K) (ha : 0 < a)
    (hidf : 0 ≤ idf) (h0 : 0 ≤ t1) (h : t1 ≤ t2) :
    idf * t1 * K / (t1 + a) ≤ idf * t2 * K / (t2 + a) := by
  have h1 : 0 < t1 + a := by linarith
  have h2 : 0 < t2 + a := by linarith
  rw [div_le_div_iff₀ h1 h2]
  nlinarith [mul_nonneg (mul_nonneg hidf hK) (mul_nonneg ha.le (sub_nonneg.mpr h))]

theorem bm25TermScore_eq (idf : ℝ) (tf : ℕ) (docLength : ℕ) (avgDocLen : ℝ) :
    bm25TermScore 1.5 0.75 idf tf docLength avgDocLen =
      idf * (tf : ℝ) * 2.5 /
        ((tf : ℝ) + (1.5 * (1 - 0.75 + 0.75 * ((docLength : ℝ) / avgDocLen)) + 1e-9)) := by
  simp only [bm25TermScore]
  norm_num
  ring_nf

theorem bm25_denominator_shift_pos (docLength : ℕ) (avgDocLen : ℝ)
    (havg : 0 < avgDocLen) :
    0 < 1.5 * (1 - 0.75 + 0.75 * ((docLength : ℝ) / avgDocLen)) + 1e-9 := by
  have hratio : (0 : ℝ) ≤ (docLength : ℝ) / avgDocLen :=
    div_nonneg (Nat.cast_nonneg _) havg.le
  nlinarith

/-- C1: with the default parameters `k1 = 1.5`, `b = 0.75`, a query
token with positive IDF contributes a raw BM25 score that is monotone
non-decreasing in its term frequency when the document length and the
corpus statistics are held fixed; in particular doubling the frequency
does not decrease the score. -/
theorem bm25_raw_score_monotone_in_tf (idf avgDocLen : ℝ) (hidf : 0 < idf)
    (havg : 0 < avgDocLen) (docLength : ℕ) (tf1 tf2 : ℕ) (hle : tf1 ≤ tf2) :
    bm25TermScore 1.5 0.75 idf tf1 docLength avgDocLen ≤
      bm25TermScore 1.5 0.75 idf tf2 docLength avgDocLen ∧
    ∀ tf : ℕ, bm25TermScore 1.5 0.75 idf tf docLength avgDocLen ≤
      bm25TermScore 1.5 0.75 idf (2 * tf) docLength avgDocLen := by
  have ha := bm25_denominator_shift_pos docLength avgDocLen havg
  constructor
  · rw [bm25TermScore_eq, bm25TermScore_eq]
    exact rrf_div_term_mono _ _ _ _ _ (by norm_num) ha hidf.le
      (Nat.cast_nonneg _) (by exact_mod_cast hle)
  · intro tf
    rw [bm25TermScore_eq, bm25TermScore_eq]
    exact rrf_div_term_mono _ _ _ _ _ (by norm_num) ha hidf.le
      (Nat.cast_nonneg _) (by push_cast; linarith [Nat.cast_nonneg (α := ℝ) tf])

/-- Witness for C1 at `idf = 1`, `avgdl = 1`, `|d| = 1`, `tf 1 ≤ tf 2`. -/
theorem bm25_raw_score_monotone_in_tf_witness :
    bm25TermScore 1.5 0.75 1 1 1 1 ≤ bm25TermScore 1.5 0.75 1 2 1 1 :=
  (bm25_raw_score_monotone_in_tf 1 1 one_pos one_pos 1 1 2 (by norm_num)).1

/-! ## Claim C3: cosine distance -/

theorem zip_self_map_mul (v : List ℝ) :
    ((v.zip v).map (fun p => p.1 * p.2)).sum = ((v.map (fun x => x * x)).sum) := by
  induction v with
  | nil => rfl
  | cons x t ih => simp [ih]

theorem magnitude_sq (v : List ℝ) : magnitude v * magnitude v = (v.map (fun x => x * x)).sum := by
  have h : 0 ≤ (v.map (fun x => x * x)).sum :=
    List.sum_nonneg (by intro x hx; rcases List.mem_map.mp hx with ⟨y, _, rfl⟩; exact mul_self_nonneg y)
  simpa [magnitude] using Real.mul_self_sqrt h

/-- C3: the cosine distance of two equal-length vectors is `0` when both
have zero magnitude, `1` when exactly one does, and otherwise
`1 − clamp(dot/(‖a‖·‖b‖), −1, 1)`; hence it is `0` on identical nonzero
vectors and `1` on orthogonal nonzero vectors. -/
theorem cosine_distance_spec (v1 v2 : List ℝ) (hlen : v1.length = v2.length) :
    (magnitude v1 = 0 → magnitude v2 = 0 → cosineDistance v1 v2 = .ok 0) ∧
    (magnitude v1 = 0 → magnitude v2 ≠ 0 → cosineDistance v1 v2 = .ok 1) ∧
    (magnitude v1 ≠ 0 → magnitude v2 = 0 → cosineDistance v1 v2 = .ok 1) ∧
    (magnitude v1 ≠ 0 → magnitude v2 ≠ 0 →
      cosineDistance v1 v2 = .ok (1 - max (-1)
        (min 1 (((v1.zip v2).map (fun p => p.1 * p.2)).sum /
          (magnitude v1 * magnitude v2))))) ∧
    (v1 = v2 → magnitude v1 ≠ 0 → cosineDistance v1 v2 = .ok 0) ∧
    (((v1.zip v2).map (fun p => p.1 * p.2)).sum = 0 → magnitude v1 ≠ 0 →
      magnitude v2 ≠ 0 → cosineDistance v1 v2 = .ok 1) := by
  have hnot : ¬ v1.length ≠ v2.length := by simpa using hlen
  refine ⟨?_, ?_, ?_, ?_, ?_, ?_⟩
  · intro h1 h2
    simp [cosineDistance, hnot, h1, h2]
    norm_num
  · intro h1 h2
    simp [cosineDistance, hnot, h1, h2]
    norm_num
  · intro h1 h2
    simp [cosineDistance, hnot, h1, h2]
    norm_num
  · intro h1 h2
    simp [cosineDistance, dotProduct, hnot, h1, h2]
    norm_num
  · rintro rfl h1
    have hsum : ((v1.zip v1).map (fun p => p.1 * p.2)).sum = magnitude v1 * magnitude v1 := by
      rw [zip_self_map_mul, magnitude_sq]
    have hm : magnitude v1 * magnitude v1 ≠ 0 := mul_ne_zero h1 h1
    simp only [cosineDistance, dotProduct, hnot, h1]
    norm_num [h1, hsum, div_self hm]
  · intro hdot h1 h2
    simp [cosineDistance, dotProduct, hnot, h1, h2, hdot]
    norm_num

/-- Witness for C3 on the orthogonal nonzero pair `[1, 0]`, `[0, 1]`. -/
theorem cosine_distance_spec_witness :
    cosineDistance [(1 : ℝ), 0] [0, 1] = .ok 1 := by
  have hmag : magnitude [(1 : ℝ), 0] = 1 ∧ magnitude [(0 : ℝ), 1] = 1 := by
    constructor <;> simp [magnitude]
  exact (cosine_distance_spec [(1 : ℝ), 0] [0, 1] rfl).2.2.2.2.2
    (by norm_num) (by rw [hmag.1]; norm_num) (by rw [hmag.2]; norm_num)

/-! ## Claim C8: searching an empty index never raises -/

/-- C8: the empty-index check precedes all argument validation, so on
an index with no stored documents/vectors, `search` returns `[]` for
every query of any type and every `k`, including `k ≤ 0`. -/
theorem empty_index_search_total :
    (∀ (st : BM25State) (q : PyVal) (k : ℤ) (f : ℝ), st.documents = [] →
      bm25Search st q k f = (st, .ok [])) ∧
    (∀ (ef : Option (String → List ℚ)) (st : VState) (q : PyVal) (k : ℤ),
      st.vectors = [] → vectorSearch ef st q k = .ok []) := by
  constructor
  · intro st q k f h
    simp [bm25Search, h]
  · intro ef st q k h
    simp [vectorSearch, h]

/-- Witness for C8: empty indexes, non-string query, `k = 0`. -/
theorem empty_index_search_total_witness :
    bm25Search bm25Init .other 0 0.1 = (bm25Init, .ok []) ∧
    vectorSearch none vCosineEmpty .other 0 = .ok [] :=
  ⟨empty_index_search_total.1 bm25Init .other 0 0.1 rfl,
   empty_index_search_total.2 none vCosineEmpty .other 0 rfl⟩

/-! ## Claim C5: search argument validation (corrected)

The claim quantifies over every index state "including the empty
index", but in both `search` methods the empty-index check comes FIRST
and returns `[]` before any validation, so on an empty index no error
is raised even for a non-string query or `k ≤ 0`.  The counterexample
below exhibits this; the amended theorem restricts the claim to
nonempty indexes (for `VectorIndex`, with a dimensionality on record,
which every nonempty reachable state has). -/

/-- C5 counterexample: on the empty lexical index, a non-string query
with `k = 0` does NOT raise — `search` returns `[]`. -/
theorem bm25_search_no_error_on_empty :
    bm25Search bm25Init .other 0 0.1 = (bm25Init, .ok []) := by
  simp [bm25Search, bm25Init]

/-- C5 (amended to nonempty index states): on a nonempty BM25 index,
`search` raises whenever the query is not a string or `k ≤ 0`; on a
nonempty vector index (dimensionality on record), `search` raises
whenever `k ≤ 0`, whenever the query's resolved vector dimensionality
mismatches the established one, and whenever a string query arrives
with no embedding function configured. -/
theorem search_validation_errors (st : BM25State) (q : PyVal) (k : ℤ) (f : ℝ)
    (ef : Option (String → List ℚ)) (vst : VState) (vq : PyVal) (vk : ℤ) (dim : ℕ)
    (hne : st.documents ≠ []) (hvne : vst.vectors ≠ [])
    (hdim : vst.vectorDim = some dim) :
    (q.isStr = false ∨ k ≤ 0 → ∃ e, (bm25Search st q k f).2 = .error e) ∧
    ((vk ≤ 0 ∨
      (∃ s, vq = .str s ∧ ef = none) ∨
      (∃ s g, vq = .str s ∧ ef = some g ∧ (g s).length ≠ dim) ∨
      (∃ v, vq.asNumList = some v ∧ v.length ≠ dim)) →
      ∃ e, vectorSearch ef vst vq vk = .error e) := by
  have hst : st.documents.isEmpty = false := by
    simpa [List.isEmpty_iff] using hne
  have hvst : vst.vectors.isEmpty = false := by
    simpa [List.isEmpty_iff] using hvne
  constructor
  · rintro (hq | hk)
    · simp [bm25Search, hst, hq]
    · cases hq : q.isStr with
      | false => simp [bm25Search, hst, hq]
      | true => simp [bm25Search, hst, hq, hk]
  · intro hcase
    rcases hcase with hk | ⟨s, rfl, rfl⟩ | ⟨s, g, rfl, rfl, hmis⟩ | ⟨v, hv, hmis⟩
    · -- `k ≤ 0`: whichever way the query resolves, some raise happens
      -- before the result is produced
      cases vq with
      | str s =>
          cases ef with
          | none => simp [vectorSearch, hvst]
          | some g =>
              by_cases hl : (g s).length = dim
              · simp [vectorSearch, hvst, hdim, hl, hk]
              · simp [vectorSearch, hvst, hdim, hl]
      | num q => simp [vectorSearch, hvst, PyVal.asNumList]
      | list xs =>
          cases hnl : PyVal.asNumList (.list xs) with
          | none => simp [vectorSearch, hvst, hnl]
          | some v =>
              by_cases hl : v.length = dim
              · simp [vectorSearch, hvst, hnl, hdim, hl, hk]
              · simp [vectorSearch, hvst, hnl, hdim, hl]
      | dict fs => simp [vectorSearch, hvst, PyVal.asNumList]
      | other => simp [vectorSearch, hvst, PyVal.asNumList]
    · simp [vectorSearch, hvst]
    · simp [vectorSearch, hvst, hdim, hmis]
    · cases vq with
      | str s => simp [PyVal.asNumList] at hv
      | num q => simp [PyVal.asNumList] at hv
      | list xs => simp [vectorSearch, hvst, hv, hdim, hmis]
      | dict fs => simp [PyVal.asNumList] at hv
      | other => simp [PyVal.asNumList] at hv

/-! ## Claim C6: additions are atomic with respect to errors -/

/-- C6: a rejected `BM25Index.add_document` (non-dict document, missing
`'content'`, non-string content) and a rejected
`VectorIndex.add_vector` (non-numeric vector, invalid document shape,
or dimensionality conflict) raise and return the ENTIRE index state
unchanged — every validation precedes every mutation. -/
theorem add_operations_atomic :
    (∀ (st : BM25State) (d : Obj), badDoc d →
      ∃ e, bm25AddDocument st d = (st, some e)) ∧
    (∀ (vst : VState) (v : PyVal) (d : Obj),
      (v.asNumList = none ∨ badShapeDoc d ∨
        (∃ vl, v.asNumList = some vl ∧ vst.vectors ≠ [] ∧
          vst.vectorDim ≠ some vl.length)) →
      ∃ e, vectorAddVector vst v d = (vst, some e)) := by
  constructor
  · intro st d hbad
    by_cases hd : d.val.isDict
    · rcases hbad with h | h | ⟨w, hw, hws⟩
      · exact absurd hd (by simp [h])
      · simp [bm25AddDocument, hd, h]
      · cases w with
        | str s => simp [PyVal.isStr] at hws
        | num q => simp [bm25AddDocument, hd, hw]
        | list xs => simp [bm25AddDocument, hd, hw]
        | dict fs => simp [bm25AddDocument, hd, hw]
        | other => simp [bm25AddDocument, hd, hw]
    · have : d.val.isDict = false := by simpa using hd
      simp [bm25AddDocument, this]
  · intro vst v d hbad
    cases hv : v.asNumList with
    | none => simp [vectorAddVector, hv]
    | some vl =>
        rcases hbad with h | h | ⟨vl', hvl', hne, hdim⟩
        · simp [hv] at h
        · rcases h with h | h
          · simp [vectorAddVector, hv, h]
          · by_cases hd : d.val.isDict
            · simp [vectorAddVector, hv, hd, h]
            · have : d.val.isDict = false := by simpa using hd
              simp [vectorAddVector, hv, this]
        · rw [hv] at hvl'
          injection hvl' with hvl'
          subst hvl'
          by_cases hd : d.val.isDict
          · by_cases hc : (d.val.dictGet "content").isNone
            · simp [vectorAddVector, hv, hd, hc]
            · simp [vectorAddVector, hv, hd, hc, hne, hdim]
          · have : d.val.isDict = false := by simpa using hd
            simp [vectorAddVector, hv, this]

/-- Witness for C6: a non-dict document rejected by the lexical index,
and a dimension-2 vector rejected by the dimension-1 vector index, both
leaving the states untouched. -/
theorem add_operations_atomic_witness :
    (∃ e, bm25AddDocument bm25Init ⟨0, .other⟩ = (bm25Init, some e)) ∧
    (∃ e, vectorAddVector vOneDim (.list [.num 1, .num 2]) dC = (vOneDim, some e)) :=
  ⟨add_operations_atomic.1 bm25Init ⟨0, .other⟩ (Or.inl rfl),
   add_operations_atomic.2 vOneDim (.list [.num 1, .num 2]) dC
     (Or.inr (Or.inr ⟨[1, 2], rfl, by simp [vOneDim],
       by simp [vOneDim]⟩))⟩

/-! ## Claim C10: structural invariant of the vector index -/

theorem vectorAddVector_cases (st : VState) (v : PyVal) (d : Obj) :
    (vectorAddVector st v d).1 = st ∨
    ∃ vl, v.asNumList = some vl ∧
      (vectorAddVector st v d).1.vectors = st.vectors ++ [vl] ∧
      (vectorAddVector st v d).1.documents = st.documents ++ [d] ∧
      ((st.vectors = [] ∧ (vectorAddVector st v d).1.vectorDim = some vl.length) ∨
       (st.vectors ≠ [] ∧ st.vectorDim = some vl.length ∧
        (vectorAddVector st v d).1.vectorDim = st.vectorDim)) := by
  cases hv : v.asNumList with
  | none => exact Or.inl (by simp [vectorAddVector, hv])
  | some vl =>
      by_cases hd : d.val.isDict
      · by_cases hc : (d.val.dictGet "content").isNone
        · exact Or.inl (by simp [vectorAddVector, hv, hd, hc])
        · by_cases he : st.vectors = []
          · refine Or.inr ⟨vl, rfl, ?_, ?_, Or.inl ⟨he, ?_⟩⟩ <;>
              simp [vectorAddVector, hv, hd, hc, he]
          · by_cases hmatch : st.vectorDim = some vl.length
            · refine Or.inr ⟨vl, rfl, ?_, ?_, Or.inr ⟨he, hmatch, ?_⟩⟩ <;>
                simp [vectorAddVector, hv, hd, hc, he, hmatch]
            · exact Or.inl (by simp [vectorAddVector, hv, hd, hc, he, hmatch])
      · have hd' : d.val.isDict = false := by simpa using hd
        exact Or.inl (by simp [vectorAddVector, hv, hd'])

theorem vInvariant_vectorAddVector (st : VState) (v : PyVal) (d : Obj)
    (hinv : vInvariant st) : vInvariant (vectorAddVector st v d).1 := by
  obtain ⟨hlen, hdim⟩ := hinv
  rcases vectorAddVector_cases st v d with h | ⟨vl, hv, hvec, hdoc, hcase⟩
  · rw [h]; exact ⟨hlen, hdim⟩
  · rcases hcase with ⟨he, hnew⟩ | ⟨hne, hmatch, hkeep⟩
    · constructor
      · rw [hvec, hdoc, he]
        rw [he] at hlen
        have hd0 : st.documents = [] := List.length_eq_zero.mp hlen.symm
        simp [hd0]
      · intro w hw n hn
        rw [hvec, he] at hw
        rw [hnew] at hn
        injection hn with hn
        simp at hw
        rw [hw]
        exact hn
    · constructor
      · rw [hvec, hdoc]
        simp [hlen]
      · intro w hw n hn
        rw [hvec] at hw
        rw [hkeep] at hn
        rcases List.mem_append.mp hw with hw | hw
        · exact hdim w hw n hn
        · rw [List.mem_singleton.mp hw]
          rw [hmatch] at hn
          exact Option.some_injective _ hn

theorem vInvariant_vStep (ef : Option (String → List ℚ)) (st : VState) (op : VOp)
    (hinv : vInvariant st) : vInvariant (vStep ef st op) := by
  cases op with
  | addVec v d => exact vInvariant_vectorAddVector st v d hinv
  | search q k => exact hinv
  | addDoc d =>
      cases ef with
      | none => exact hinv
      | some f =>
          by_cases hd : d.val.isDict
          · cases hc : d.val.dictGet "content" with
            | none => simpa [vStep, vectorAddDocument, hd, hc] using hinv
            | some w =>
                cases w with
                | str s =>
                    simpa [vStep, vectorAddDocument, hd, hc] using
                      vInvariant_vectorAddVector st (.list ((f s).map .num)) d hinv
                | num q => simpa [vStep, vectorAddDocument, hd, hc] using hinv
                | list xs => simpa [vStep, vectorAddDocument, hd, hc] using hinv
                | dict fs => simpa [vStep, vectorAddDocument, hd, hc] using hinv
                | other => simpa [vStep, vectorAddDocument, hd, hc] using hinv
          · have hd' : d.val.isDict = false := by simpa using hd
            simpa [vStep, vectorAddDocument, hd'] using hinv

/-- C10: starting from a freshly constructed `VectorIndex`, after any
sequence of `add_document`, `add_vector` and `search` operations, the
stored vectors and documents lists have equal length and every stored
vector has the established dimensionality; moreover `search` leaves the
state untouched. -/
theorem vector_index_invariant (ef : Option (String → List ℚ)) (m : String)
    (st0 : VState) (h0 : vectorIndexInit m = .ok st0) (ops : List VOp) :
    vInvariant (ops.foldl (vStep ef) st0) ∧
    (∀ (st : VState) (q : PyVal) (k : ℤ), vStep ef st (.search q k) = st) := by
  have hinit : vInvariant st0 := by
    by_cases hm : m ≠ "cosine" ∧ m ≠ "euclidean"
    · simp [vectorIndexInit, hm] at h0
    · simp only [vectorIndexInit, if_neg hm, Except.ok.injEq] at h0
      subst h0
      exact ⟨rfl, by intro v hv; simp at hv⟩
  have hfold : ∀ (l : List VOp) (st : VState), vInvariant st →
      vInvariant (l.foldl (vStep ef) st) := by
    intro l
    induction l with
    | nil => exact fun st h => h
    | cons op rest ih => exact fun st h => ih _ (vInvariant_vStep ef st op h)
  exact ⟨hfold ops st0 hinit, fun st q k => rfl⟩

/-- Witness for C10 on a concrete operation sequence: add a
1-dimensional vector, a rejected 2-dimensional vector, then search. -/
theorem vector_index_invariant_witness :
    vInvariant ([VOp.addVec (.list [.num 1]) dC,
      VOp.addVec (.list [.num 1, .num 2]) dC,
      VOp.search .other 1].foldl (vStep none) vCosineEmpty) :=
  (vector_index_invariant none "cosine" vCosineEmpty rfl _).1

/-- Witness for the amended C5: one-document indexes with a non-string
query for the lexical index and a string query with no embedding
function for the vector index. -/
theorem search_validation_errors_witness :
    (∃ e, (bm25Search bm25OneDoc .other 0 0.1).2 = .error e) ∧
    (∃ e, vectorSearch none vOneDim (.str "a") 1 = .error e) := by
  have h := search_validation_errors bm25OneDoc .other 0 0.1 none vOneDim
    (.str "a") 1 1 (by decide) (by decide) rfl
  exact ⟨h.1 (Or.inl rfl), h.2 (Or.inr (Or.inl ⟨"a", rfl, rfl⟩))⟩

/-! ## Claim C9: BM25 search scores lie strictly between 0 and 1 -/

/-- C9: every score returned by `BM25Index.search` (default
normalization factor `0.1`) is strictly greater than `0` and strictly
less than `1`: only documents with raw score above `1e-9` survive the
filter, and each kept raw score `r` is emitted as `exp(-0.1 * r)`. -/
theorem bm25_search_scores_bounded (st st' : BM25State) (q : PyVal) (k : ℤ)
    (res : List (Obj × ℝ)) (d : Obj) (s : ℝ)
    (h : bm25Search st q k 0.1 = (st', .ok res)) (hm : (d, s) ∈ res) :
    0 < s ∧ s < 1 := by
  rw [bm25Search.eq_def] at h
  dsimp only [] at h
  split at h
  · simp only [Prod.mk.injEq, Except.ok.injEq] at h
    obtain ⟨rfl, rfl⟩ := h
    simp at hm
  · split at h
    · simp only [Prod.mk.injEq] at h
      exact absurd h.2 (by simp)
    · split at h
      · simp only [Prod.mk.injEq] at h
        exact absurd h.2 (by simp)
      · split at h
        · split at h
          · simp only [Prod.mk.injEq, Except.ok.injEq] at h
            obtain ⟨rfl, rfl⟩ := h
            simp at hm
          · split at h
            · simp only [Prod.mk.injEq, Except.ok.injEq] at h
              obtain ⟨rfl, rfl⟩ := h
              simp at hm
            · simp only [Prod.mk.injEq, Except.ok.injEq] at h
              obtain ⟨rfl, rfl⟩ := h
              rw [mem_insertionSortB] at hm
              rcases List.mem_map.mp hm with ⟨p, hp, hpe⟩
              have hpraw := (mem_insertionSortB _ _ _).mp (List.take_subset _ _ hp)
              have hfilt := List.of_mem_filter hpraw
              have hgt : (1e-9 : ℝ) < p.1 := of_decide_eq_true hfilt
              injection hpe with h1 h2
              subst h1
              subst h2
              refine ⟨Real.exp_pos _, ?_⟩
              rw [Real.exp_lt_one_iff]
              nlinarith
        · split at h
          · simp only [Prod.mk.injEq, Except.ok.injEq] at h
            obtain ⟨rfl, rfl⟩ := h
            simp at hm
          · split at h
            · simp only [Prod.mk.injEq, Except.ok.injEq] at h
              obtain ⟨rfl, rfl⟩ := h
              simp at hm
            · simp only [Prod.mk.injEq, Except.ok.injEq] at h
              obtain ⟨rfl, rfl⟩ := h
              rw [mem_insertionSortB] at hm
              rcases List.mem_map.mp hm with ⟨p, hp, hpe⟩
              have hpraw := (mem_insertionSortB _ _ _).mp (List.take_subset _ _ hp)
              have hfilt := List.of_mem_filter hpraw
              have hgt : (1e-9 : ℝ) < p.1 := of_decide_eq_true hfilt
              injection hpe with h1 h2
              subst h1
              subst h2
              refine ⟨Real.exp_pos _, ?_⟩
              rw [Real.exp_lt_one_iff]
              nlinarith

/-! ## Concrete evaluation of the two-document fixture -/

theorem bm25TwoDocs_k1 : bm25TwoDocs.k1 = 1.5 := rfl

theorem bm25TwoDocs_b : bm25TwoDocs.b = 0.75 := rfl

theorem rawCats_eq : rawCats = Real.log 2 * (5 / 2) / (2500000001 / 1000000000) := by
  rw [rawCats]
  simp +decide [computeBm25Score, buildIndex, calculateIdf, bm25TermScore,
    bm25TwoDocs_k1, bm25TwoDocs_b,
    show bm25TwoDocs.docFreqs = [("cats", 1), ("are", 2), ("mammals", 2), ("dogs", 1)] from rfl,
    show bm25TwoDocs.corpusTokens = [["cats", "are", "mammals"], ["dogs", "are", "mammals"]] from rfl,
    show bm25TwoDocs.documents = [d1, d2] from rfl,
    show bm25TwoDocs.docLen = [3, 3] from rfl, List.lookup]
  norm_num

theorem rawCats_gt : (1e-9 : ℝ) < rawCats := by
  rw [rawCats_eq, lt_div_iff₀ (by norm_num)]
  nlinarith [Real.log_two_gt_d9]

theorem score_d2_zero : computeBm25Score (buildIndex bm25TwoDocs) ["cats"] 1 = 0 := by
  simp +decide [computeBm25Score, buildIndex, calculateIdf, bm25TermScore,
    show bm25TwoDocs.docFreqs = [("cats", 1), ("are", 2), ("mammals", 2), ("dogs", 1)] from rfl,
    show bm25TwoDocs.corpusTokens = [["cats", "are", "mammals"], ["dogs", "are", "mammals"]] from rfl,
    show bm25TwoDocs.documents = [d1, d2] from rfl,
    show bm25TwoDocs.docLen = [3, 3] from rfl, List.lookup]

/-- `search("cats", k=5)` on the two-document lexical index returns
`d1` alone, scored `exp(-0.1 * raw)`. -/
theorem bm25Search_cats_eval :
    bm25Search bm25TwoDocs (.str "cats") 5 0.1 =
      (buildIndex bm25TwoDocs, .ok [(d1, Real.exp (-(0.1) * rawCats))]) := by
  have havg : (buildIndex bm25TwoDocs).avgDocLen = 3 := by
    simp [buildIndex, show bm25TwoDocs.documents = [d1, d2] from rfl,
      show bm25TwoDocs.docLen = [3, 3] from rfl]
    norm_num
  rw [bm25Search.eq_def]
  simp +decide only [show bm25TwoDocs.documents.isEmpty = false from rfl,
    show PyVal.isStr (.str "cats") = true from rfl,
    show bm25TwoDocs.indexBuilt = false from rfl,
    Bool.not_false, Bool.not_true, if_false, if_true, ite_true, ite_false]
  rw [if_neg (by rw [havg]; norm_num : ¬((buildIndex bm25TwoDocs).avgDocLen = 0))]
  simp only [show defaultTokenizer "cats" = ["cats"] from rfl,
    show (buildIndex bm25TwoDocs).documents = [d1, d2] from rfl,
    List.length_cons, List.length_nil]
  simp only [show List.range 2 = [0, 1] from rfl, List.map_cons, List.map_nil,
    List.getD_cons_zero, List.getD_cons_succ]
  rw [show computeBm25Score (buildIndex bm25TwoDocs) ["cats"] 0 = rawCats from rfl]
  simp only [List.filter_cons, List.filter_nil, decide_eq_true_eq, score_d2_zero]
  rw [if_pos rawCats_gt, if_neg (by norm_num : ¬((1e-9 : ℝ) < 0))]
  simp [insertionSortB, orderedInsertB, show (5 : ℤ).toNat = 5 from rfl]

/-- Witness for C9 on the two-document fixture: the score of the sole
result of `search("cats", 5)` lies strictly between 0 and 1. -/
theorem bm25_search_scores_bounded_witness :
    0 < Real.exp (-(0.1) * rawCats) ∧ Real.exp (-(0.1) * rawCats) < 1 :=
  bm25_search_scores_bounded bm25TwoDocs (buildIndex bm25TwoDocs) (.str "cats") 5
    [(d1, Real.exp (-(0.1) * rawCats))] d1 (Real.exp (-(0.1) * rawCats))
    bm25Search_cats_eval (List.mem_singleton.mpr rfl)

/-! ## Claim C7: end-to-end lexical-only retrieval -/

theorem lexIndexFn_cats :
    lexIndexFn "cats" 5 = .ok [(d1, Real.exp (-(0.1) * rawCats))] := by
  rw [lexIndexFn, bm25Search_cats_eval]

theorem calc_single : calcRrfScore 60 [some 1] = 1 / 61 := by
  simp [calcRrfScore]
  norm_num

theorem prerank_cats :
    retrieverPrerank [lexIndexFn] (.str "cats") 1 60 = .ok [(d1, 1 / 61)] := by
  have hpos : (0 : ℝ) < 1 / 61 := by norm_num
  rw [retrieverPrerank.eq_def]
  simp +decide only [show PyVal.isStr (.str "cats") = true from rfl,
    Bool.not_true, if_false, ite_false, if_true, ite_true]
  rw [show (1 : ℤ) * 5 = 5 from by norm_num]
  simp only [List.mapM_cons, List.mapM_nil, lexIndexFn_cats]
  simp only [bind, Except.bind, pure, Except.pure]
  simp +decide [scoredDocs, firstSeenDedup, firstSeenDedupAux, ranksOf,
    lastRank1, lastIdxRec, calc_single, hpos, insertionSortB, orderedInsertB,
    show (1 : ℤ).toNat = 1 from rfl]

/-- C7: with a single BM25 lexical index holding exactly
`{id:"d1", content:"cats are mammals"}` and
`{id:"d2", content:"dogs are mammals"}` and no reranker,
`Retriever.search("cats", k=1, k_rrf=60)` returns `d1` as the only
result. -/
theorem retriever_lexical_cats_top1 (genId : ℕ → String) :
    ∃ s, retrieverSearch [lexIndexFn] none genId (.str "cats") 1 60 =
      .ok [(d1, s)] := by
  refine ⟨1 / 61, ?_⟩
  rw [retrieverSearch.eq_def, prerank_cats]

theorem calcRrfScore_cons (kRrf : ℤ) (o : Option ℕ) (t : List (Option ℕ)) :
    calcRrfScore kRrf (o :: t) =
      (match o with
       | some r => 1.0 / ((kRrf : ℝ) + (r : ℝ))
       | none => 0) + calcRrfScore kRrf t := by
  cases o <;> simp [calcRrfScore]

theorem calcRrf_eq_rrfSpec (kRrf : ℤ) (d : Obj) (allResults : List (List (Obj × ℝ)))
    (hnd : ∀ r ∈ allResults, (r.map Prod.fst).Nodup) :
    calcRrfScore kRrf (ranksOf allResults d) = rrfSpecScore allResults kRrf d := by
  induction allResults with
  | nil => simp [ranksOf, calcRrfScore, rrfSpecScore]
  | cons res rest ih =>
      have hres := hnd res (List.mem_cons_self _ _)
      have hrest : ∀ r ∈ rest, (r.map Prod.fst).Nodup :=
        fun r hr => hnd r (List.mem_cons_of_mem _ hr)
      have htail : calcRrfScore kRrf (ranksOf rest d) = rrfSpecScore rest kRrf d := ih hrest
      simp only [ranksOf, List.map_cons] at htail ⊢
      rw [calcRrfScore_cons]
      simp only [rrfSpecScore, List.map_cons, List.sum_cons] at htail ⊢
      rw [htail]
      congr 1
      rw [lastRank1, lastIdxRec_eq_firstIdxRec d _ hres]
      cases hfi : firstIdxRec d (res.map Prod.fst) with
      | none => simp
      | some i => simp

theorem retrieverSearch_none_eq
    (idxFns : List (String → ℤ → Except PyErr (List (Obj × ℝ))))
    (genId : ℕ → String) (q : PyVal) (k kRrf : ℤ) :
    retrieverSearch idxFns none genId q k kRrf =
      retrieverPrerank idxFns q k kRrf := by
  rw [retrieverSearch.eq_def]
  cases retrieverPrerank idxFns q k kRrf <;> rfl

theorem mem_prerank_scoredDocs
    (idxFns : List (String → ℤ → Except PyErr (List (Obj × ℝ))))
    (q : PyVal) (k kRrf : ℤ) (res : List (Obj × ℝ))
    (allResults : List (List (Obj × ℝ)))
    (hmap : idxFns.mapM
      (fun ix => ix (match q with | .str s => s | _ => "") (k * 5)) = .ok allResults)
    (hok : retrieverPrerank idxFns q k kRrf = .ok res) :
    ∀ p ∈ res, p ∈ scoredDocs allResults kRrf := by
  intro p hp
  rw [retrieverPrerank.eq_def] at hok
  split at hok
  · simp at hok
  · split at hok
    · simp at hok
    · split at hok
      · simp at hok
      · rw [hmap] at hok
        simp only [Except.ok.injEq] at hok
        subst hok
        have h1 := List.take_subset _ _ hp
        rw [mem_insertionSortB] at h1
        exact List.mem_of_mem_filter h1

theorem calc_xy : calcRrfScore 60 [some 1, some 2] = 123 / 3782 := by
  simp [calcRrfScore]
  norm_num

theorem calc_yx : calcRrfScore 60 [some 2, some 1] = 123 / 3782 := by
  simp [calcRrfScore]
  norm_num

theorem eval_XY (genId : ℕ → String) :
    retrieverSearch [ixXY, ixYX] none genId (.str "q") 2 60 =
      .ok [(docX, 123 / 3782), (docY, 123 / 3782)] := by
  have hpos : (0 : ℝ) < 123 / 3782 := by norm_num
  rw [retrieverSearch_none_eq, retrieverPrerank.eq_def]
  simp +decide only [show PyVal.isStr (.str "q") = true from rfl,
    Bool.not_true, if_false, ite_false, if_true, ite_true]
  simp only [List.mapM_cons, List.mapM_nil, ixXY, ixYX]
  simp only [bind, Except.bind, pure, Except.pure]
  simp +decide [scoredDocs, firstSeenDedup, firstSeenDedupAux, ranksOf,
    lastRank1, lastIdxRec, calc_xy, calc_yx, hpos, insertionSortB, orderedInsertB,
    show (2 : ℤ).toNat = 2 from rfl]

theorem calc_xx : calcRrfScore 60 [some 1, some 1, none] = 2 / 61 := by
  simp [calcRrfScore]
  norm_num

theorem calc_w : calcRrfScore 60 [none, none, some 1] = 1 / 61 := by
  simp [calcRrfScore]
  norm_num

theorem eval_XXW (genId : ℕ → String) :
    retrieverSearch [ixX, ixX, ixW] none genId (.str "q") 2 60 =
      .ok [(docX, 2 / 61), (docW, 1 / 61)] := by
  have hposX : (0 : ℝ) < 2 / 61 := by norm_num
  have hposW : (0 : ℝ) < 1 / 61 := by norm_num
  have hle : (1 / 61 : ℝ) ≤ 2 / 61 := by norm_num
  rw [retrieverSearch_none_eq, retrieverPrerank.eq_def]
  simp +decide only [show PyVal.isStr (.str "q") = true from rfl,
    Bool.not_true, if_false, ite_false, if_true, ite_true]
  simp only [List.mapM_cons, List.mapM_nil, ixX, ixW]
  simp only [bind, Except.bind, pure, Except.pure]
  simp +decide [scoredDocs, firstSeenDedup, firstSeenDedupAux, ranksOf,
    lastRank1, lastIdxRec, calc_xx, calc_w, hposX, hposW,
    insertionSortB, orderedInsertB, show (2 : ℤ).toNat = 2 from rfl]
  rw [if_pos (by norm_num : (61⁻¹ : ℝ) ≤ 2 / 61)]
  norm_num

/-- C2: every document's fused score in `Retriever.search` (no
reranker) is the Reciprocal Rank Fusion sum `Σ 1/(k_rrf + rank)` over
exactly the per-index result lists containing it, rank 1-based;
consequently with `k_rrf = 60`, indexes ranking `[X, Y]` and `[Y, X]`
give X and Y equal fused scores, and a document found at rank 1 in only
one index scores strictly below one found at rank 1 in two. -/
theorem retriever_rrf_fused_scores
    (idxFns : List (String → ℤ → Except PyErr (List (Obj × ℝ))))
    (genId : ℕ → String) (q : PyVal) (k kRrf : ℤ) (res : List (Obj × ℝ))
    (allResults : List (List (Obj × ℝ)))
    (hmap : idxFns.mapM
      (fun ix => ix (match q with | .str s => s | _ => "") (k * 5)) = .ok allResults)
    (hnd : ∀ r ∈ allResults, (r.map Prod.fst).Nodup)
    (hok : retrieverSearch idxFns none genId q k kRrf = .ok res) :
    (∀ d s, (d, s) ∈ res → s = rrfSpecScore allResults kRrf d) ∧
    (∃ s, retrieverSearch [ixXY, ixYX] none genId (.str "q") 2 60 =
      .ok [(docX, s), (docY, s)]) ∧
    (∃ sX sW, retrieverSearch [ixX, ixX, ixW] none genId (.str "q") 2 60 =
      .ok [(docX, sX), (docW, sW)] ∧ sW < sX) := by
  refine ⟨?_, ⟨123 / 3782, eval_XY genId⟩,
    ⟨2 / 61, 1 / 61, eval_XXW genId, by norm_num⟩⟩
  intro d s hds
  rw [retrieverSearch_none_eq] at hok
  have hmem := mem_prerank_scoredDocs idxFns q k kRrf res allResults hmap hok (d, s) hds
  rw [scoredDocs] at hmem
  rcases List.mem_map.mp hmem with ⟨d0, _, heq⟩
  injection heq with h1 h2
  subst h1
  rw [← h2]
  exact calcRrf_eq_rrfSpec kRrf _ allResults hnd

/-- Witness for C2: the fused score of X in the `[X, Y]` / `[Y, X]`
scenario is its specification-side RRF sum. -/
theorem retriever_rrf_fused_scores_witness :
    (123 / 3782 : ℝ) =
      rrfSpecScore [[(docX, 0), (docY, 0)], [(docY, 0), (docX, 0)]] 60 docX := by
  have h := retriever_rrf_fused_scores [ixXY, ixYX] (fun _ => "") (.str "q") 2 60
    [(docX, 123 / 3782), (docY, 123 / 3782)]
    [[(docX, 0), (docY, 0)], [(docY, 0), (docX, 0)]]
    rfl (by decide) (eval_XY (fun _ => ""))
  exact h.1 docX (123 / 3782) (by simp)

theorem lastFind_some {α : Type*} (p : α → Bool) (l : List α) (a : α)
    (h : lastFind p l = some a) : a ∈ l ∧ p a := by
  have hmem : a ∈ l.filter p := by
    rcases List.mem_getLast?_eq_getLast (l := l.filter p) (x := a) h with ⟨h', rfl⟩
    exact List.getLast_mem h'
  exact ⟨List.mem_of_mem_filter hmem, List.of_mem_filter hmem⟩

theorem lastFind_none {α : Type*} (p : α → Bool) (l : List α)
    (h : lastFind p l = none) : ∀ a ∈ l, ¬ p a := by
  rw [lastFind, List.getLast?_eq_none_iff, List.filter_eq_nil_iff] at h
  intro a ha hpa
  exact h a ha hpa

theorem assignIds_map_oid (genId : ℕ → String) :
    ∀ (n : ℕ) (docs : List Obj),
      (assignIds genId n docs).map Obj.oid = docs.map Obj.oid := by
  intro n docs
  induction docs generalizing n with
  | nil => rfl
  | cons d ds ih =>
      rw [assignIds]
      by_cases h : (d.val.dictGet "id").isSome
      · simp only [h, if_true, ite_true, List.map_cons, ih]
      · simp only [h, if_false, ite_false, Bool.false_eq_true, List.map_cons, ih]
        rfl

theorem origScoreById_mem (result : List (Obj × ℝ)) (oid : ℕ)
    (h : oid ∈ result.map (fun p => p.1.oid)) :
    ∃ p ∈ result, p.1.oid = oid ∧ p.2 = origScoreById result oid := by
  rcases List.mem_map.mp h with ⟨p0, hp0, hfst⟩
  rw [origScoreById]
  cases hlf : lastFind (fun p => decide (p.1.oid = oid)) result with
  | none =>
      exact absurd (decide_eq_true hfst) (lastFind_none _ _ hlf p0 hp0)
  | some p1 =>
      obtain ⟨hmem, hpred⟩ := lastFind_some _ _ _ hlf
      exact ⟨p1, hmem, of_decide_eq_true hpred, rfl⟩

theorem prerank_N :
    retrieverPrerank [ixN] (.str "q") 1 60 = .ok [(dN, 1 / 61)] := by
  have hpos : (0 : ℝ) < 1 / 61 := by norm_num
  rw [retrieverPrerank.eq_def]
  simp +decide only [show PyVal.isStr (.str "q") = true from rfl,
    Bool.not_true, if_false, ite_false, if_true, ite_true]
  simp only [List.mapM_cons, List.mapM_nil, ixN]
  simp only [bind, Except.bind, pure, Except.pure]
  simp +decide [scoredDocs, firstSeenDedup, firstSeenDedupAux, ranksOf,
    lastRank1, lastIdxRec, calc_single, hpos, insertionSortB, orderedInsertB,
    show (1 : ℤ).toNat = 1 from rfl]

/-- The live path of this repository (`rag_context.py`, `rag_usage.py`:
documents added without ids): the id-less candidate receives the
generated identifier `"gen0"`, the reranker returns it, and the rerank
step resolves it back to the (now id-bearing) candidate with its fused
score. -/
theorem eval_noid :
    retrieverSearch [ixN] (some (fun _ _ _ => ["gen0"])) (fun _ => "gen0")
      (.str "q") 1 60 = .ok [(setId dN "gen0", 1 / 61)] := by
  rw [retrieverSearch.eq_def, prerank_N]
  rfl

/-! ## Claim C4: reranking semantics of Retriever.search -/

/-- C4: with a reranker configured, `Retriever.search` first assigns a
fresh identifier to every id-less top-`k` candidate (the source's
lines 134–140, random draws supplied by `genId`) and returns exactly
the rerank step applied to those candidates; the rerank step keeps, in
the reranker's order, exactly the identifiers naming a candidate,
pairs each resolved document with its original fused score (looked up
by object identity, hence unchanged by the id assignment), silently
skips identifiers naming no candidate, and drops candidates whose
identifiers the reranker omits; finally, the generated identifier of
an initially id-less candidate does resolve to that candidate. -/
theorem retriever_rerank_semantics :
    (∀ (idxFns : List (String → ℤ → Except PyErr (List (Obj × ℝ))))
       (q : PyVal) (k kRrf : ℤ) (genId : ℕ → String)
       (f : List Obj → String → ℤ → List String) (pre : List (Obj × ℝ)),
       retrieverPrerank idxFns q k kRrf = .ok pre →
       retrieverSearch idxFns (some f) genId q k kRrf =
         .ok (rerankStep pre (assignIds genId 0 (pre.map Prod.fst))
           (f (assignIds genId 0 (pre.map Prod.fst))
             (match q with | .str s => s | _ => "") k))) ∧
    (∀ (result : List (Obj × ℝ)) (genId : ℕ → String) (ids : List String)
       (p : Obj × ℝ),
       p ∈ rerankStep result (assignIds genId 0 (result.map Prod.fst)) ids →
       p.1 ∈ assignIds genId 0 (result.map Prod.fst) ∧
       ∃ p0 ∈ result, p0.1.oid = p.1.oid ∧ p0.2 = p.2) ∧
    (∀ (result : List (Obj × ℝ)) (docsOnly : List Obj) (ids : List String),
       (rerankStep result docsOnly ids).map (fun p => idOf p.1) =
         (ids.filter (fun i => decide (some i ∈ docsOnly.map idOf))).map some) ∧
    (∀ (result : List (Obj × ℝ)) (docsOnly : List Obj) (ids : List String)
       (d : Obj) (i : String),
       d ∈ docsOnly → idOf d = some i → i ∉ ids →
       d ∉ (rerankStep result docsOnly ids).map Prod.fst) ∧
    retrieverSearch [ixN] (some (fun _ _ _ => ["gen0"])) (fun _ => "gen0")
      (.str "q") 1 60 = .ok [(setId dN "gen0", 1 / 61)] := by
  refine ⟨?_, ?_, ?_, ?_, eval_noid⟩
  · intro idxFns q k kRrf genId f pre hpre
    rw [retrieverSearch.eq_def, hpre]
  · intro result genId ids p hp
    rw [rerankStep] at hp
    rcases List.mem_filterMap.mp hp with ⟨i, _, hmatch⟩
    cases hlf : lastFind (fun d => decide (idOf d = some i))
        (assignIds genId 0 (result.map Prod.fst)) with
    | none => rw [hlf] at hmatch; cases hmatch
    | some doc =>
        rw [hlf] at hmatch
        injection hmatch with hmatch
        subst hmatch
        have hdmem := (lastFind_some _ _ _ hlf).1
        refine ⟨hdmem, ?_⟩
        have h1 : doc.oid ∈ (assignIds genId 0 (result.map Prod.fst)).map Obj.oid :=
          List.mem_map_of_mem _ hdmem
        rw [assignIds_map_oid, List.map_map] at h1
        rcases origScoreById_mem result doc.oid h1 with ⟨p0, hp0, hpoid, hpv⟩
        exact ⟨p0, hp0, hpoid, hpv⟩
  · intro result docsOnly ids
    induction ids with
    | nil => rfl
    | cons i t ih =>
        simp only [rerankStep, List.filterMap_cons] at ih ⊢
        cases hlf : lastFind (fun d => decide (idOf d = some i)) docsOnly with
        | some doc =>
            obtain ⟨hmem, hpred⟩ := lastFind_some _ _ _ hlf
            have hdoc : idOf doc = some i := of_decide_eq_true hpred
            have hin : some i ∈ docsOnly.map idOf :=
              List.mem_map.mpr ⟨doc, hmem, hdoc⟩
            rw [List.filter_cons, if_pos (by simpa using hin)]
            simp only [List.map_cons, hdoc]
            rw [ih]
        | none =>
            have hnot : some i ∉ docsOnly.map idOf := by
              intro hin
              rcases List.mem_map.mp hin with ⟨doc, hd, hid⟩
              exact (lastFind_none _ _ hlf doc hd) (decide_eq_true hid)
            rw [List.filter_cons, if_neg (by simpa using hnot)]
            exact ih
  · intro result docsOnly ids d i hmem hid hni hd
    rcases List.mem_map.mp hd with ⟨p, hp, hfst⟩
    rw [rerankStep] at hp
    rcases List.mem_filterMap.mp hp with ⟨i', hi', hmatch⟩
    cases hlf : lastFind (fun d0 => decide (idOf d0 = some i')) docsOnly with
    | none => rw [hlf] at hmatch; cases hmatch
    | some doc =>
        rw [hlf] at hmatch
        injection hmatch with hmatch
        obtain ⟨_, hpred⟩ := lastFind_some _ _ _ hlf
        have hdocid : idOf doc = some i' := of_decide_eq_true hpred
        have hdoc : doc = d := by rw [← hmatch] at hfst; simpa using hfst
        rw [hdoc, hid] at hdocid
        injection hdocid with hii
        exact hni (hii ▸ hi')

/-- Witness for C4: reranking the `[X, Y]` / `[Y, X]` scenario with the
identifier list `["y"]`. -/
theorem retriever_rerank_semantics_witness :
    retrieverSearch [ixXY, ixYX] (some (fun _ _ _ => ["y"])) (fun _ => "")
      (.str "q") 2 60 =
      .ok (rerankStep [(docX, 123 / 3782), (docY, 123 / 3782)]
        (assignIds (fun _ => "") 0 [docX, docY]) ["y"]) :=
  retriever_rerank_semantics.1 [ixXY, ixYX] (.str "q") 2 60 (fun _ => "")
    (fun _ _ _ => ["y"]) [(docX, 123 / 3782), (docY, 123 / 3782)]
    ((retrieverSearch_none_eq [ixXY, ixYX] (fun _ => "") (.str "q") 2 60).symm.trans
      (eval_XY (fun _ => "")))
